import Mathlib

/-!
Verification of the icns-to-png batch converter (src/convert.py).

The development shallowly embeds the core of `convert.py`:
discovery of `.icns` files (line 39), the per-file conversion loop with its
try/except isolation (lines 57-74), and the summary computation of
`print_summary` (lines 78-101).  Filesystem and PIL effects (stat, open,
save) are modelled as per-entry oracles carried by the directory entry, so
that the control flow of the loop is embedded exactly while the external
library calls stay abstract.
-/

/-- One element of the `stats` list built by `convert_files`
(src/convert.py lines 66-70): the dict with keys `filename`,
`original_size`, `converted_size`. -/
structure ConversionResult where
  filename : String
  original_size : Nat
  converted_size : Nat
deriving DecidableEq

/-- A decoded PIL image, abstracted to its pixel `mode` string (e.g. "RGB",
"RGBA", "P", "L") together with an opaque pixel payload `data`. -/
structure Img where
  mode : String
  data : Nat
deriving DecidableEq

/-- PIL `img.convert(m)`: the library re-encodes the same pixels in the requested mode;
modelled as keeping the payload and changing the mode. -/
def Img.convert (img : Img) (m : String) : Img :=
  { img with mode := m }

/-- Index of the last occurrence of `c` in `cs` (Python `str.rfind`,
restricted to the found/not-found distinction). -/
def rfindIdx (c : Char) : List Char → Option Nat
  | [] => none
  | x :: xs =>
    match rfindIdx c xs with
    | some i => some (i + 1)
    | none => if x = c then some 0 else none

/-- Python `PurePath.suffix` on a file name: the substring from the last
dot, provided that dot is neither the first nor the last character;
otherwise the empty string. -/
def pySuffix (name : String) : String :=
  let cs := name.toList
  match rfindIdx '.' cs with
  | none => ""
  | some i => if 0 < i ∧ i < cs.length - 1 then String.mk (cs.drop i) else ""

/-- One entry of `input_dir.iterdir()`, together with the oracle results of
the filesystem/PIL calls the loop body performs on it:
`statSize` models `fp.stat().st_size`, `openImg` models
`Image.open(fp)` followed by `img.load()`, `saveImg` models
`img.save(out_path, "PNG", optimize=False)` applied to the image actually
passed to the encoder, and `outStatSize` models `out_path.stat().st_size`.
An `Except.error` value is a Python exception raised by that call. -/
structure DirEntry where
  name : String
  isFile : Bool
  statSize : Except String Nat
  openImg : Except String Img
  saveImg : Img → Except String Unit
  outStatSize : Except String Nat

/-- Python `str.lower()` as it acts on the ASCII suffix strings involved
here: lower-case each character. -/
def pyLower (s : String) : String :=
  String.mk (s.toList.map Char.toLower)

/-- Line 39: `files = [f for f in input_dir.iterdir() if f.is_file() and
f.suffix.lower() == '.icns']`. -/
def discoverFiles (entries : List DirEntry) : List DirEntry :=
  entries.filter (fun f => f.isFile && (pyLower (pySuffix f.name) == ".icns"))

/-- Lines 62-63: `if img.mode not in ("RGB", "RGBA"): img = img.convert("RGBA")`. -/
def normalizeMode (img : Img) : Img :=
  if img.mode = "RGB" ∨ img.mode = "RGBA" then img else img.convert "RGBA"

/-- The body of the per-file try block, lines 58-70: stat the source, open
and load the image, normalize the mode, save as PNG, stat the output, and
build the stats entry.  Any raised exception aborts the remaining steps of
this file only. -/
def runFile (f : DirEntry) : Except String ConversionResult := do
  let origSize ← f.statSize
  let img ← f.openImg
  let img := normalizeMode img
  let _ ← f.saveImg img
  let convSize ← f.outStatSize
  pure { filename := f.name, original_size := origSize, converted_size := convSize }

/-- One iteration of the `for fp in pbar` loop (lines 57-74): on success the
result is appended to `stats`; on any exception the message
`Error {fp.name}: {e}` is printed (collected here) and the loop continues. -/
def convertStep (acc : List ConversionResult × List String) (f : DirEntry) :
    List ConversionResult × List String :=
  match runFile f with
  | .ok r => (acc.1 ++ [r], acc.2)
  | .error e => (acc.1, acc.2 ++ ["Error " ++ f.name ++ ": " ++ e])

/-- The whole conversion loop: the final `stats` list and the error
messages printed along the way, in order. -/
def convertLoop (files : List DirEntry) : List ConversionResult × List String :=
  files.foldl convertStep ([], [])

/-- Embedding of `convert_files` (lines 33-76): discover the `.icns` entries, return
`None` when there are none (lines 41-48), otherwise run the loop and return
the stats (paired here with the printed error messages). -/
def convert_files (entries : List DirEntry) :
    Option (List ConversionResult × List String) :=
  let files := discoverFiles entries
  if files.isEmpty then none else some (convertLoop files)

/-- Insertion step of the stable descending sort: `r` is placed before the
first element whose `converted_size` is not larger than `r`'s, so an element
occurring earlier in the input ends up before later elements of equal size. -/
def insertDesc (r : ConversionResult) :
    List ConversionResult → List ConversionResult
  | [] => [r]
  | x :: xs =>
    if x.converted_size ≤ r.converted_size then r :: x :: xs
    else x :: insertDesc r xs

/-- Line 96: `sorted(stats, key=lambda x: x['converted_size'], reverse=True)`.
Python's `sorted` is a stable sort; with `reverse=True` elements of equal key
keep their original relative order.  Modelled as a stable insertion sort,
descending on `converted_size`. -/
def pySortDesc : List ConversionResult → List ConversionResult
  | [] => []
  | x :: xs => insertDesc x (pySortDesc xs)

/-- Line 96: `top3 = sorted(...)[:3]`. -/
def top3 (stats : List ConversionResult) : List ConversionResult :=
  (pySortDesc stats).take 3

/-- Line 99: `ratio = s['converted_size'] / s['original_size'] if
s['original_size'] else 1`.  Python division of ints is exact here, so the
value is modelled in `ℚ`. -/
def ratioOf (s : ConversionResult) : ℚ :=
  if s.original_size ≠ 0 then (s.converted_size : ℚ) / (s.original_size : ℚ) else 1

/-- The per-result lines of the top-3 block (lines 96-101): each of the top
3 results with its printed size ratio. -/
def top3Report (stats : List ConversionResult) : List (ConversionResult × ℚ) :=
  (top3 stats).map (fun s => (s, ratioOf s))

/-- The values computed and printed by `print_summary` (lines 78-101).
`topReport` is `none` when the `if stats:` guard at line 95 skips the top-3
block. -/
structure Summary where
  count : Nat
  total_original : Nat
  total_converted : Nat
  delta : Int
  sign : String
  changeColor : String
  topReport : Option (List (ConversionResult × ℚ))
deriving DecidableEq

/-- Embedding of `print_summary` (lines 78-101) as a pure computation of the printed
values: totals are Python `sum(...)` left folds, `delta = total_conv -
total_orig` over signed integers, `sign`/`color` follow `delta > 0`, and the
top-3 block runs only when `stats` is non-empty. -/
def print_summary (stats : List ConversionResult) : Summary :=
  let total_orig : Nat := stats.foldl (fun acc s => acc + s.original_size) 0
  let total_conv : Nat := stats.foldl (fun acc s => acc + s.converted_size) 0
  let delta : Int := (total_conv : Int) - (total_orig : Int)
  { count := stats.length
    total_original := total_orig
    total_converted := total_conv
    delta := delta
    sign := if 0 < delta then "↑" else "↓"
    changeColor := if 0 < delta then "RED" else "GREEN"
    topReport := if stats.isEmpty then none else some (top3Report stats) }

/-- What one iteration of `main`'s `while True` loop does after
`convert_files` returns (lines 107-116): `None` makes it `continue` back to
the prompt; otherwise it reaches the end-of-run prompt, printing a summary
exactly when `stats` is truthy (non-empty). -/
inductive RunOutcome where
  | reprompt : RunOutcome
  | finished : Option Summary → RunOutcome
deriving DecidableEq

/-- Lines 107-116 of `main`. -/
def mainStep (stats : Option (List ConversionResult)) : RunOutcome :=
  match stats with
  | none => RunOutcome.reprompt
  | some l => RunOutcome.finished (if l.isEmpty then none else some (print_summary l))

/-- One full pass of `main`'s loop body over a directory listing. -/
def runOnce (entries : List DirEntry) : RunOutcome :=
  mainStep ((convert_files entries).map Prod.fst)

/-- Descending order on `converted_size`: `a` precedes `b`. -/
def descBySize (a b : ConversionResult) : Prop :=
  b.converted_size ≤ a.converted_size

/-- The successful branch of one loop iteration, as an optional value. -/
def okPart (f : DirEntry) : Option ConversionResult :=
  (runFile f).toOption

/-- The failing branch of one loop iteration: the printed error message. -/
def errPart (f : DirEntry) : Option String :=
  match runFile f with
  | .ok _ => none
  | .error e => some ("Error " ++ f.name ++ ": " ++ e)

/-- A concrete directory entry whose every oracle call succeeds. -/
def entryOkA : DirEntry :=
  { name := "a.icns", isFile := true, statSize := Except.ok 5,
    openImg := Except.ok { mode := "RGBA", data := 0 },
    saveImg := fun _ => Except.ok (), outStatSize := Except.ok 9 }

/-- A concrete directory entry whose stat call raises. -/
def entryBadB : DirEntry :=
  { name := "b.icns", isFile := true, statSize := Except.error "boom",
    openImg := Except.ok { mode := "P", data := 1 },
    saveImg := fun _ => Except.ok (), outStatSize := Except.ok 3 }

/-- A concrete subdirectory entry (not a regular file). -/
def entrySubdir : DirEntry :=
  { name := "sub.icns", isFile := false, statSize := Except.ok 1,
    openImg := Except.error "is a directory",
    saveImg := fun _ => Except.ok (), outStatSize := Except.ok 1 }

/-- A concrete regular file with a non-matching extension. -/
def entryTxt : DirEntry :=
  { name := "notes.txt", isFile := true, statSize := Except.ok 2,
    openImg := Except.error "not an image",
    saveImg := fun _ => Except.ok (), outStatSize := Except.ok 2 }

/-- A concrete icns file with an upper-case extension. -/
def entryUpper : DirEntry :=
  { name := "A.ICNS", isFile := true, statSize := Except.ok 7,
    openImg := Except.ok { mode := "RGB", data := 2 },
    saveImg := fun _ => Except.ok (), outStatSize := Except.ok 11 }

theorem convertStep_foldl (files : List DirEntry)
    (acc : List ConversionResult × List String) :
    files.foldl convertStep acc =
      (acc.1 ++ files.filterMap okPart, acc.2 ++ files.filterMap errPart) := by
  induction files generalizing acc with
  | nil => simp
  | cons f fs ih =>
    cases hf : runFile f with
    | ok r =>
      simp [List.foldl_cons, convertStep, hf, ih, okPart, errPart,
        Except.toOption, List.filterMap_cons]
    | error e =>
      simp [List.foldl_cons, convertStep, hf, ih, okPart, errPart,
        Except.toOption, List.filterMap_cons]

theorem convertLoop_eq (files : List DirEntry) :
    convertLoop files = (files.filterMap okPart, files.filterMap errPart) := by
  simpa [convertLoop] using convertStep_foldl files ([], [])

theorem insertDesc_perm (r : ConversionResult) (l : List ConversionResult) :
    (insertDesc r l).Perm (r :: l) := by
  induction l with
  | nil => exact List.Perm.refl _
  | cons x xs ih =>
    by_cases h : x.converted_size ≤ r.converted_size
    · rw [insertDesc, if_pos h]
    · rw [insertDesc, if_neg h]
      exact (ih.cons x).trans (List.Perm.swap r x xs)

theorem pySortDesc_perm (l : List ConversionResult) : (pySortDesc l).Perm l := by
  induction l with
  | nil => exact List.Perm.refl _
  | cons x xs ih => exact (insertDesc_perm x (pySortDesc xs)).trans (ih.cons x)

theorem insertDesc_sorted (r : ConversionResult) {l : List ConversionResult}
    (hl : List.Sorted descBySize l) :
    List.Sorted descBySize (insertDesc r l) := by
  induction l with
  | nil => exact List.sorted_singleton r
  | cons x xs ih =>
    rcases List.sorted_cons.mp hl with ⟨hx, hxs⟩
    by_cases h : x.converted_size ≤ r.converted_size
    · rw [insertDesc, if_pos h]
      refine List.sorted_cons.mpr ⟨?_, hl⟩
      intro b hb
      rcases List.mem_cons.mp hb with rfl | hb
      · exact h
      · exact le_trans (hx b hb) h
    · rw [insertDesc, if_neg h]
      refine List.sorted_cons.mpr ⟨?_, ih hxs⟩
      intro b hb
      rcases List.mem_cons.mp ((insertDesc_perm r xs).mem_iff.mp hb) with rfl | hb
      · exact le_of_lt (lt_of_not_le h)
      · exact hx b hb

theorem pySortDesc_sorted (l : List ConversionResult) :
    List.Sorted descBySize (pySortDesc l) := by
  induction l with
  | nil => exact List.sorted_nil
  | cons x xs ih => exact insertDesc_sorted x ih

theorem insertDesc_filter_eq (r : ConversionResult) (l : List ConversionResult)
    (k : Nat) (hk : r.converted_size = k) :
    (insertDesc r l).filter (fun x => x.converted_size == k) =
      r :: l.filter (fun x => x.converted_size == k) := by
  induction l with
  | nil => simp [insertDesc, hk]
  | cons x xs ih =>
    by_cases h : x.converted_size ≤ r.converted_size
    · rw [insertDesc, if_pos h]
      simp [List.filter_cons, hk]
    · have hxk : ¬(x.converted_size = k) := by omega
      rw [insertDesc, if_neg h]
      simp [List.filter_cons, hxk, ih]

theorem insertDesc_filter_ne (r : ConversionResult) (l : List ConversionResult)
    (k : Nat) (hk : ¬(r.converted_size = k)) :
    (insertDesc r l).filter (fun x => x.converted_size == k) =
      l.filter (fun x => x.converted_size == k) := by
  induction l with
  | nil => simp [insertDesc, hk]
  | cons x xs ih =>
    by_cases h : x.converted_size ≤ r.converted_size
    · rw [insertDesc, if_pos h]
      simp [List.filter_cons, hk]
    · rw [insertDesc, if_neg h]
      simp [List.filter_cons, ih]

theorem pySortDesc_filter (l : List ConversionResult) (k : Nat) :
    (pySortDesc l).filter (fun x => x.converted_size == k) =
      l.filter (fun x => x.converted_size == k) := by
  induction l with
  | nil => rfl
  | cons x xs ih =>
    by_cases hk : x.converted_size = k
    · rw [pySortDesc, insertDesc_filter_eq x _ k hk, ih, List.filter_cons]
      simp [hk]
    · rw [pySortDesc, insertDesc_filter_ne x _ k hk, ih, List.filter_cons]
      simp [hk]

theorem filter_take_isPrefixOf (p : ConversionResult → Bool) (n : Nat)
    (l : List ConversionResult) :
    (l.take n).filter p <+: l.filter p := by
  conv_rhs => rw [← List.take_append_drop n l]
  rw [List.filter_append]
  exact List.prefix_append _ _

theorem length_filterMap_okPart (files : List DirEntry) :
    (files.filterMap okPart).length
      + (files.filter (fun f => !(runFile f).isOk)).length = files.length := by
  induction files with
  | nil => rfl
  | cons f fs ih =>
    cases hf : runFile f with
    | ok r =>
      have h1 : okPart f = some r := by simp [okPart, hf, Except.toOption]
      have h2 : (!(runFile f).isOk) = false := by
        simp [hf, Except.isOk, Except.toBool]
      rw [List.filterMap_cons, h1, List.filter_cons, h2]
      simp only [Bool.false_eq_true, if_false, List.length_cons]
      omega
    | error e =>
      have h1 : okPart f = none := by simp [okPart, hf, Except.toOption]
      have h2 : (!(runFile f).isOk) = true := by
        simp [hf, Except.isOk, Except.toBool]
      rw [List.filterMap_cons, h1, List.filter_cons, h2]
      simp only [if_true, List.length_cons]
      omega

theorem foldl_add_eq_sum (g : ConversionResult → Nat)
    (l : List ConversionResult) (a : Nat) :
    l.foldl (fun acc s => acc + g s) a = a + (l.map g).sum := by
  induction l generalizing a with
  | nil => simp
  | cons x xs ih => simp [List.foldl_cons, ih, Nat.add_assoc]

/-- Claim C1: for every non-empty batch outcome, the top-3 report is the
stable descending sort of the results by `converted_size`, truncated to 3
elements: it has length `min 3 n`, is sorted in descending order of
`converted_size`, together with the unselected rest it is a permutation of
the outcome, every selected result has `converted_size` at least that of
every unselected one, and results of equal `converted_size` appear in the
relative order in which their files were processed. -/
theorem top3_stable_desc_sort (stats : List ConversionResult)
    (_hne : stats ≠ []) :
    (top3 stats).length = min 3 stats.length
    ∧ List.Sorted descBySize (top3 stats)
    ∧ (top3 stats ++ (pySortDesc stats).drop 3).Perm stats
    ∧ (∀ x ∈ top3 stats, ∀ y ∈ (pySortDesc stats).drop 3,
        y.converted_size ≤ x.converted_size)
    ∧ ∀ k : Nat, (top3 stats).filter (fun r => r.converted_size == k) <+:
        stats.filter (fun r => r.converted_size == k) := by
  refine ⟨?_, ?_, ?_, ?_, ?_⟩
  · rw [top3, List.length_take, (pySortDesc_perm stats).length_eq]
  · exact List.Pairwise.sublist (List.take_sublist 3 _) (pySortDesc_sorted stats)
  · rw [top3, List.take_append_drop]
    exact pySortDesc_perm stats
  · intro x hx y hy
    have hs := pySortDesc_sorted stats
    rw [← List.take_append_drop 3 (pySortDesc stats)] at hs
    exact (List.pairwise_append.mp hs).2.2 x hx y hy
  · intro k
    rw [top3, ← pySortDesc_filter stats k]
    exact filter_take_isPrefixOf _ 3 _

/-- Concrete run of the C1 theorem: four results with a tie at
converted_size 10 between "a" (processed earlier) and "c" (later). -/
theorem top3_stable_desc_sort_witness :
    (top3 [⟨"a", 1, 10⟩, ⟨"b", 1, 20⟩, ⟨"c", 1, 10⟩, ⟨"d", 1, 30⟩]).length =
      min 3 ([⟨"a", 1, 10⟩, ⟨"b", 1, 20⟩, ⟨"c", 1, 10⟩,
        ⟨"d", 1, 30⟩] : List ConversionResult).length
    ∧ top3 [⟨"a", 1, 10⟩, ⟨"b", 1, 20⟩, ⟨"c", 1, 10⟩, ⟨"d", 1, 30⟩] =
      [⟨"d", 1, 30⟩, ⟨"b", 1, 20⟩, ⟨"a", 1, 10⟩] :=
  ⟨(top3_stable_desc_sort [⟨"a", 1, 10⟩, ⟨"b", 1, 20⟩, ⟨"c", 1, 10⟩,
      ⟨"d", 1, 30⟩] (by decide)).1, by decide⟩

/-- Claim C2: the outcome of the conversion loop never exceeds the number of
input files; the missing files are exactly those whose processing raised an
error, and every appended result is the full record of a successfully
processed file (no entry with a missing size is ever appended). -/
theorem outcome_length_invariant (files : List DirEntry) :
    (convertLoop files).1.length ≤ files.length
    ∧ (convertLoop files).1.length
        + (files.filter (fun f => !(runFile f).isOk)).length = files.length
    ∧ ∀ r ∈ (convertLoop files).1, ∃ f ∈ files, runFile f = Except.ok r := by
  have hloop := convertLoop_eq files
  refine ⟨?_, ?_, ?_⟩
  · rw [hloop]
    exact List.length_filterMap_le _ _
  · rw [hloop]
    exact length_filterMap_okPart files
  · intro r hr
    rw [hloop] at hr
    rcases List.mem_filterMap.mp hr with ⟨f, hf, hok⟩
    refine ⟨f, hf, ?_⟩
    cases h : runFile f with
    | ok r2 =>
      have hr2 : r2 = r := by simpa [okPart, h, Except.toOption] using hok
      subst hr2
      rfl
    | error e =>
      exact absurd hok (by simp [okPart, h, Except.toOption])

/-- Concrete run of the C2 theorem on one succeeding and one failing file. -/
theorem outcome_length_invariant_witness :
    (convertLoop [entryOkA, entryBadB]).1.length ≤ 2
    ∧ ∃ f ∈ [entryOkA, entryBadB], runFile f = Except.ok ⟨"a.icns", 5, 9⟩ :=
  ⟨(outcome_length_invariant [entryOkA, entryBadB]).1,
   (outcome_length_invariant [entryOkA, entryBadB]).2.2 ⟨"a.icns", 5, 9⟩ (by decide)⟩

/-- Claim C3: every per-file error is caught inside the loop iteration: the
failing file contributes no result, the printed message carries the file
name and the cause, and the outcome and error log are exactly the two
per-file projections of the whole input list — every later file is still
processed, so no error escapes to abort the remaining batch. -/
theorem per_file_errors_contained (files : List DirEntry) :
    (convertLoop files).1 = files.filterMap okPart
    ∧ (convertLoop files).2 = files.filterMap errPart
    ∧ ∀ f ∈ files, ∀ e, runFile f = Except.error e →
        ("Error " ++ f.name ++ ": " ++ e) ∈ (convertLoop files).2 := by
  have hloop := convertLoop_eq files
  refine ⟨by rw [hloop], by rw [hloop], ?_⟩
  intro f hf e he
  rw [hloop]
  exact List.mem_filterMap.mpr ⟨f, hf, by simp [errPart, he]⟩

/-- Concrete run of the C3 theorem: the failing file's message is printed. -/
theorem per_file_errors_contained_witness :
    ("Error " ++ "b.icns" ++ ": " ++ "boom") ∈ (convertLoop [entryOkA, entryBadB]).2 :=
  (per_file_errors_contained [entryOkA, entryBadB]).2.2 entryBadB
    (List.mem_cons_of_mem _ (List.mem_cons_self _ _)) "boom" rfl

/-- Claim C4: in the top-3 report, a result with non-zero original size gets
the exact quotient converted/original as its ratio (so ratio times original
equals converted), and a result with zero original size gets ratio exactly
1; the division branch is never taken with a zero divisor. -/
theorem top3_ratio_policy (stats : List ConversionResult)
    (s : ConversionResult) (q : ℚ) (hmem : (s, q) ∈ top3Report stats) :
    (s.original_size = 0 → q = 1)
    ∧ (s.original_size ≠ 0 →
        q * (s.original_size : ℚ) = (s.converted_size : ℚ)) := by
  rcases List.mem_map.mp hmem with ⟨t, ht, hts⟩
  have h1 : t = s := congrArg Prod.fst hts
  have h2 : ratioOf t = q := congrArg Prod.snd hts
  subst h1
  constructor
  · intro h0
    rw [← h2]
    simp [ratioOf, h0]
  · intro h0
    rw [← h2]
    have hr : ratioOf t = (t.converted_size : ℚ) / (t.original_size : ℚ) := by
      simp [ratioOf, h0]
    rw [hr]
    exact div_mul_cancel₀ _ (Nat.cast_ne_zero.mpr h0)

/-- Concrete run of the C4 theorem: a zero-original result gets ratio 1, a
2-byte original converting to 5 bytes gets ratio 5/2. -/
theorem top3_ratio_policy_witness :
    ((⟨"z", 0, 4⟩ : ConversionResult), (1 : ℚ)) ∈ top3Report [⟨"z", 0, 4⟩]
    ∧ (1 : ℚ) = 1
    ∧ ((5 : ℚ) / 2) * ((2 : Nat) : ℚ) = ((5 : Nat) : ℚ) :=
  ⟨by simp [top3Report, top3, pySortDesc, insertDesc, ratioOf],
   (top3_ratio_policy [⟨"z", 0, 4⟩] ⟨"z", 0, 4⟩ 1
     (by simp [top3Report, top3, pySortDesc, insertDesc, ratioOf])).1 rfl,
   (top3_ratio_policy [⟨"w", 2, 5⟩] ⟨"w", 2, 5⟩ ((5 : ℚ) / 2)
     (by simp [top3Report, top3, pySortDesc, insertDesc, ratioOf])).2
     (by decide)⟩

/-- Claim C5: the summary reports the number of results, the sums of the
original and converted sizes, and the signed delta converted − original; on
originals 100 and 50 converting to 120 and 40 it yields totals 150 and 160
and delta +10. -/
theorem summary_totals (stats : List ConversionResult) :
    (print_summary stats).count = stats.length
    ∧ (print_summary stats).total_original
        = (stats.map (fun s => s.original_size)).sum
    ∧ (print_summary stats).total_converted
        = (stats.map (fun s => s.converted_size)).sum
    ∧ (print_summary stats).delta = ((print_summary stats).total_converted : Int)
        - ((print_summary stats).total_original : Int)
    ∧ (print_summary [⟨"a", 100, 120⟩, ⟨"b", 50, 40⟩]).total_original = 150
    ∧ (print_summary [⟨"a", 100, 120⟩, ⟨"b", 50, 40⟩]).total_converted = 160
    ∧ (print_summary [⟨"a", 100, 120⟩, ⟨"b", 50, 40⟩]).delta = 10 := by
  refine ⟨rfl, ?_, ?_, rfl, by decide, by decide, by decide⟩
  · show stats.foldl (fun acc s => acc + s.original_size) 0 = _
    simpa using foldl_add_eq_sum (fun s => s.original_size) stats 0
  · show stats.foldl (fun acc s => acc + s.converted_size) 0 = _
    simpa using foldl_add_eq_sum (fun s => s.converted_size) stats 0

/-- Claim C6: a decoded image whose mode is neither "RGB" nor "RGBA" is
converted to "RGBA" before being handed to the encoder, and an image already
in "RGB" or "RGBA" is passed on unchanged. -/
theorem mode_normalization (img : Img) :
    ((img.mode = "RGB" ∨ img.mode = "RGBA") → normalizeMode img = img)
    ∧ ((img.mode ≠ "RGB" ∧ img.mode ≠ "RGBA") →
        normalizeMode img = img.convert "RGBA"
          ∧ (normalizeMode img).mode = "RGBA") := by
  constructor
  · intro h
    simp only [normalizeMode, if_pos h]
  · intro h
    have h' : ¬(img.mode = "RGB" ∨ img.mode = "RGBA") := fun hor => hor.elim h.1 h.2
    simp [normalizeMode, h', Img.convert]

/-- Concrete run of the C6 theorem: a palette image is converted, an RGB
image is untouched. -/
theorem mode_normalization_witness :
    normalizeMode { mode := "P", data := 7 } = { mode := "RGBA", data := 7 }
    ∧ normalizeMode { mode := "RGB", data := 7 } = { mode := "RGB", data := 7 } :=
  ⟨((mode_normalization { mode := "P", data := 7 }).2 (by decide)).1,
   (mode_normalization { mode := "RGB", data := 7 }).1 (Or.inl rfl)⟩

/-- Claim C7: discovery selects exactly the entries that are regular files
whose name extension, compared case-insensitively, is ".icns"; every other
entry (directory, other extension) is excluded. -/
theorem discovery_selects_icns (entries : List DirEntry) (e : DirEntry) :
    e ∈ discoverFiles entries ↔
      e ∈ entries ∧ e.isFile = true ∧ pyLower (pySuffix e.name) = ".icns" := by
  simp [discoverFiles, List.mem_filter, Bool.and_eq_true, beq_iff_eq, and_assoc]

/-- Concrete run of the C7 theorem: the upper-case `.ICNS` file is selected
from a listing that also holds a subdirectory and a `.txt` file. -/
theorem discovery_selects_icns_witness :
    entryUpper ∈ discoverFiles [entryUpper, entrySubdir, entryTxt] :=
  (discovery_selects_icns [entryUpper, entrySubdir, entryTxt] entryUpper).mpr
    ⟨List.mem_cons_self _ _, rfl, by decide⟩

/-- Claim C8: an empty batch outcome skips the summary entirely: `main`
prints no summary for it, and the top-3/ratio block inside `print_summary`
is guarded off for an empty list, so no division is attempted. -/
theorem empty_outcome_skips_summary :
    mainStep (some []) = RunOutcome.finished none
    ∧ (print_summary []).topReport = none :=
  ⟨rfl, rfl⟩

/-- Claim C9: the two empty cases are distinguished at the interface: no
discovered file makes `convert_files` return the no-work value `None` and
the run re-prompts without a summary, whereas discovered-but-all-failing
files yield `Some` of an empty stats list and the run proceeds past the
summary step to the normal end-of-run prompt. -/
theorem empty_cases_distinguished (entries : List DirEntry) :
    (discoverFiles entries = [] →
      convert_files entries = none ∧ runOnce entries = RunOutcome.reprompt)
    ∧ (discoverFiles entries ≠ [] →
        ∃ p, convert_files entries = some p
          ∧ ((∀ f ∈ discoverFiles entries, (runFile f).isOk = false) →
              p.1 = [] ∧ runOnce entries = RunOutcome.finished none)) := by
  constructor
  · intro h
    have hcf : convert_files entries = none := by
      simp [convert_files, h]
    exact ⟨hcf, by simp [runOnce, hcf, mainStep]⟩
  · intro h
    have hne : (discoverFiles entries).isEmpty = false := by
      simpa [List.isEmpty_iff] using h
    have hcf : convert_files entries = some (convertLoop (discoverFiles entries)) := by
      simp [convert_files, hne]
    refine ⟨convertLoop (discoverFiles entries), hcf, ?_⟩
    intro hall
    have h1 : (convertLoop (discoverFiles entries)).1 = [] := by
      rw [convertLoop_eq]
      rw [List.filterMap_eq_nil_iff]
      intro f hf
      cases hrf : runFile f with
      | ok r =>
        have := hall f hf
        rw [hrf] at this
        exact absurd this (by simp [Except.isOk, Except.toBool])
      | error e => simp [okPart, hrf, Except.toOption]
    refine ⟨h1, ?_⟩
    rw [runOnce, hcf]
    simp [mainStep, h1]

/-- Concrete run of the C9 theorem: a listing with only a `.txt` file makes
the run re-prompt, a listing with one failing `.icns` file reaches the
end-of-run prompt with no summary. -/
theorem empty_cases_distinguished_witness :
    runOnce [entryTxt] = RunOutcome.reprompt
    ∧ runOnce [entryBadB] = RunOutcome.finished none := by
  constructor
  · exact ((empty_cases_distinguished [entryTxt]).1 rfl).2
  · obtain ⟨p, hp, hq⟩ :=
      (empty_cases_distinguished [entryBadB]).2 (List.cons_ne_nil _ _)
    refine (hq ?_).2
    intro f hf
    have hm : f ∈ [entryBadB] := hf
    rw [List.mem_singleton] at hm
    subst hm
    rfl

/-- Claim C10: the increase indicator "↑" (and the increase color "RED") is
shown iff the delta is strictly positive; a delta of exactly zero is shown
with the decrease indicator "↓". -/
theorem delta_sign_indicator (stats : List ConversionResult) :
    ((print_summary stats).sign = "↑" ↔ 0 < (print_summary stats).delta)
    ∧ ((print_summary stats).changeColor = "RED" ↔ 0 < (print_summary stats).delta)
    ∧ ((print_summary stats).delta = 0 → (print_summary stats).sign = "↓") := by
  have hs : (print_summary stats).sign =
      if 0 < (print_summary stats).delta then "↑" else "↓" := rfl
  have hc : (print_summary stats).changeColor =
      if 0 < (print_summary stats).delta then "RED" else "GREEN" := rfl
  by_cases h : 0 < (print_summary stats).delta
  · rw [hs, hc, if_pos h, if_pos h]
    exact ⟨⟨fun _ => h, fun _ => rfl⟩, ⟨fun _ => h, fun _ => rfl⟩,
      fun h0 => absurd h0 (by omega)⟩
  · rw [hs, hc, if_neg h, if_neg h]
    exact ⟨⟨fun hh => absurd hh (by decide), fun hd => absurd hd h⟩,
      ⟨fun hh => absurd hh (by decide), fun hd => absurd hd h⟩, fun _ => rfl⟩

/-- Concrete run of the C10 theorem: a batch whose sizes are unchanged has
delta zero and is shown with the decrease indicator. -/
theorem delta_sign_indicator_witness :
    (print_summary [⟨"a", 5, 5⟩]).delta = 0
    ∧ (print_summary [⟨"a", 5, 5⟩]).sign = "↓" :=
  ⟨by decide, (delta_sign_indicator [⟨"a", 5, 5⟩]).2.2 (by decide)⟩
